import Mathlib

/-!
# Verification of the bom-service BOQ pipeline

Shallow embedding of the data-transformation core of the `bom-service`
repository (`backend/app/workers/`): catalog normalization
(`catalog.normalize_row`), validation (`validators.validate_required`),
aggregation and room rollup (`pipeline.run_pipeline`, steps 5 and the
Room_Wise sheet), insert-based BOQ generation
(`boq_generator.BOQGenerator`), arc length
(`comprehensive_extractor.ComprehensiveCADExtractor._arc_length`) and the
multi-backend conversion loop (`dwg_converter.DWGConverter.convert`).

Python strings are modelled as `String`, dictionaries keyed by strings as
association lists in insertion order (Python 3.7+ dicts preserve insertion
order), Python `set` as `Finset String`, and floats that only ever hold
exact values (entity counts, angles in the claims) as `Nat`/`ℝ`.
I/O (subprocess invocation, file system) is abstracted: a conversion
backend is modelled by the outcome its invocation would produce.
-/

namespace BomService

/-! ## String helpers

Python's `in` operator on strings is substring containment; we model it on
the character lists of the strings. `str.upper()`, `str.lower()` and
`str.strip()` are modelled character-wise (`pyUpper`, `pyLower`,
`pyStrip`); the block names involved are ASCII.
-/

/-- Decides (`listIsPrefix p l`) whether `p` is a prefix of `l`. -/
def listIsPrefix : List Char → List Char → Bool
  | [], _ => true
  | _ :: _, [] => false
  | a :: as, b :: bs => a = b && listIsPrefix as bs

/-- Decides whether `p` occurs as a contiguous sublist of `l`. -/
def listIsSub (p : List Char) : List Char → Bool
  | [] => listIsPrefix p []
  | c :: rest => listIsPrefix p (c :: rest) || listIsSub p rest

/-- Python `sub in s` (substring containment). -/
def strContains (s sub : String) : Bool :=
  listIsSub sub.toList s.toList

/-- Python `s.upper()` (character-wise upper-casing; the names involved are
ASCII). -/
def pyUpper (s : String) : String :=
  ⟨s.data.map Char.toUpper⟩

/-- Python `s.lower()`. -/
def pyLower (s : String) : String :=
  ⟨s.data.map Char.toLower⟩

/-- Drop leading whitespace characters. -/
def dropLeadingWs : List Char → List Char
  | [] => []
  | c :: rest => if c.isWhitespace then dropLeadingWs rest else c :: rest

/-- Python `s.strip()`: remove leading and trailing whitespace. -/
def pyStrip (s : String) : String :=
  ⟨(dropLeadingWs (dropLeadingWs s.data).reverse).reverse⟩

/-! ## `BOQGenerator._infer_category` (boq_generator.py lines 142-169) -/

/-- The fixed priority table of keyword lists from `_infer_category`. -/
def categoryMapping : List (List String × String) :=
  [ (["DOOR", "DOR", "PORTE"], "Doors"),
    (["WINDOW", "WIN", "FENETRE"], "Windows"),
    (["CHAIR", "SEAT"], "Chairs"),
    (["TABLE", "DESK"], "Tables"),
    (["BED"], "Beds"),
    (["SOFA", "COUCH"], "Sofas"),
    (["WARDROBE", "CUPBOARD"], "Storage") ]

/-- Source `any(kw in upper for kw in keywords)` for one table entry. -/
def entryMatches (upper : String) (e : List String × String) : Bool :=
  e.1.any (fun kw => strContains upper kw)

/-- The `for keywords, category in mapping:` loop: first matching entry wins. -/
def findCategory (upper : String) : List (List String × String) → Option String
  | [] => none
  | e :: rest => if entryMatches upper e then some e.2 else findCategory upper rest

/-- Source `BOQGenerator._infer_category`: returns `(category, confidence)` (the
source binds `upper = name.upper()` once; it is inlined here). -/
def inferCategory (name : String) : String × String :=
  match findCategory (pyUpper name) categoryMapping with
  | some cat => (cat, "high")
  | none =>
    if strContains (pyUpper name) "WALL" then ("Walls", "medium")
    else if strContains (pyUpper name) "COLUMN" || strContains (pyUpper name) "COL" then
      ("Columns", "medium")
    else ("Miscellaneous", "low")

/-! ## `BOQGenerator` data model and `generate` (boq_generator.py lines 61-179)

An element of the `inserts` list is either Python `None` (skipped) or a
dict; the generator reads only its `block_name` entry, which may itself be
missing or `None` (`ins.get("block_name") or ""`). Other entity kinds in
`cad_data["entities"]` are never read by `generate`, so the embedding
carries only the inserts; `entities.get("inserts") or []` is modelled by
an `Option` on the list.
-/

/-- One (non-`None`) entry of `cad_data["entities"]["inserts"]`. Fields other
than `block_name` and `attributes` are never read by the generator. -/
structure InsertRec where
  block_name : Option String
  attributes : List (String × String) := []
deriving DecidableEq

/-- Source `(ins.get("block_name") or "").strip()`. -/
def insertName (i : InsertRec) : String :=
  pyStrip (i.block_name.getD "")

/-- The `cad_data` structure as far as `BOQGenerator` reads it:
`entities.get("inserts")`, where `none` models an absent or `None` entry
and a `none` list element models a `None` insert. -/
structure CadData where
  inserts : Option (List (Option InsertRec))
deriving DecidableEq

/-- Source `self.entities.get("inserts") or []`. -/
def getInserts (d : CadData) : List (Option InsertRec) :=
  d.inserts.getD []

/-- Bump a name's count in the insertion-ordered dict
(`counts[name] = counts.get(name, 0) + 1`). -/
def bumpCount (name : String) : List (String × Nat) → List (String × Nat)
  | [] => [(name, 1)]
  | (k, q) :: rest =>
    if k = name then (k, q + 1) :: rest else (k, q) :: bumpCount name rest

/-- One step of the counting loop over inserts: `None` entries and entries
whose stripped block name is empty are skipped. -/
def countStep (acc : List (String × Nat)) (e : Option InsertRec) : List (String × Nat) :=
  match e with
  | none => acc
  | some i => if insertName i = "" then acc else bumpCount (insertName i) acc

/-- The `counts` dict built by `_generate_from_inserts`. -/
def countsOf (entries : List (Option InsertRec)) : List (String × Nat) :=
  entries.foldl countStep []

/-- A BOQ line item (`BOQItem` dataclass). `quantity` is a `float` in the
source but always holds the exact integer count `float(qty)`. -/
structure BOQItem where
  sl_no : Nat
  description : String
  category : String
  quantity : Nat
  unit : String
  confidence : String
  source : Option String
deriving DecidableEq

/-- The item-construction loop over the sorted `(block_name, qty)` pairs,
threading the running serial number. -/
def mkItems : List (String × Nat) → Nat → List BOQItem
  | [], _ => []
  | (name, qty) :: rest, sl =>
    { sl_no := sl
      description := name
      category := (inferCategory name).1
      quantity := qty
      unit := "Nos"
      confidence := (inferCategory name).2
      source := some ("BLOCK:" ++ name) } :: mkItems rest (sl + 1)

/-- The comparison used by `sorted(counts.items(), key=lambda kv: kv[0].lower())`. -/
def countLe (a b : String × Nat) : Prop :=
  pyLower a.1 ≤ pyLower b.1

instance : DecidableRel countLe := fun a b =>
  inferInstanceAs (Decidable (pyLower a.1 ≤ pyLower b.1))

instance : IsTotal (String × Nat) countLe :=
  ⟨fun a b => le_total (pyLower a.1) (pyLower b.1)⟩

instance : IsTrans (String × Nat) countLe :=
  ⟨fun _ _ _ hab hbc => le_trans hab hbc⟩

/-- Source `sorted(counts.items(), key=lambda kv: kv[0].lower())`; Python's sort is
stable, as is `List.insertionSort`. -/
def sortCounts (counts : List (String × Nat)) : List (String × Nat) :=
  List.insertionSort countLe counts

/-- Source `BOQGenerator._generate_from_inserts`. -/
def generateFromInserts (entries : List (Option InsertRec)) (startSl : Nat) : List BOQItem :=
  mkItems (sortCounts (countsOf entries)) startSl

/-- The `statistics` dict of `BOQGenerator._build_statistics`. -/
structure Statistics where
  total_items : Nat
  categories : Nat
  high_confidence : Nat
deriving DecidableEq

/-- Source `BOQGenerator._build_statistics`. -/
def buildStatistics (items : List BOQItem) : Statistics :=
  { total_items := items.length
    categories := (items.map (fun i => i.category)).toFinset.card
    high_confidence := (items.filter (fun i => i.confidence = "high")).length }

/-- The dictionary returned by `BOQGenerator.generate`. -/
structure BOQOutput where
  items : List BOQItem
  statistics : Statistics
deriving DecidableEq

/-- Source `BOQGenerator.generate` (a total function: it never raises). -/
def generate (d : CadData) : BOQOutput :=
  let items := generateFromInserts (getInserts d) 1
  { items := items, statistics := buildStatistics items }

/-! ## `catalog.normalize_row` (catalog.py lines 13-44)

An entity record from `dxf_extract.read_dxf_entities` is a dict with keys
`block`, `layer` and `attrs` (an upper-cased tag → stripped text dict
whose keys are unique); `scale` and `rotation` are never read by
`normalize_row`. The catalog is a dict keyed by upper-cased raw block
name; a CSV row's cells are strings (a missing cell and an empty cell are
both falsy under Python `or`, so both are modelled by `""`).
-/

/-- One raw entity record as consumed by `normalize_row`. -/
structure EntityRec where
  block : String
  layer : String
  attrs : List (String × String)
deriving DecidableEq

/-- Source `attrs.get(key)`: dict lookup on the (unique-keyed) attribute dict. -/
def lookupAttr (attrs : List (String × String)) (key : String) : Option String :=
  match attrs.find? (fun p => p.1 = key) with
  | some p => some p.2
  | none => none

/-- Python `a or b` where `a` is an optional string and `""` is falsy. -/
def orDefault (a : Option String) (b : String) : String :=
  match a with
  | some s => if s = "" then b else s
  | none => b

/-- One catalog CSV row (`std_*` columns). -/
structure CatalogEntry where
  std_item_code : String
  std_desc : String
  std_size : String
  std_material : String
  std_category : String
  std_uom : String
deriving DecidableEq

/-- The catalog dict built by `load_catalog_map`, keyed by upper-cased raw
block name. -/
abbrev Catalog := List (String × CatalogEntry)

/-- Source `catalog.get(raw)`. -/
def lookupCatalog (cat : Catalog) (raw : String) : Option CatalogEntry :=
  match cat.find? (fun p => p.1 = raw) with
  | some p => some p.2
  | none => none

/-- A normalized row (the dict returned by `normalize_row`). -/
structure Row where
  block : String
  layer : String
  item_code : String
  desc : String
  size : String
  material : String
  room : String
  category : String
  uom : String
deriving DecidableEq

/-- Source `catalog.normalize_row`: a total function (it never raises). -/
def normalize_row (row : EntityRec) (catalog : Catalog) : Row :=
  let raw := pyUpper row.block
  let m := lookupCatalog catalog raw
  let item_code := orDefault (lookupAttr row.attrs "ITEM_CODE")
    (orDefault (lookupAttr row.attrs "CODE") "")
  let desc := orDefault (lookupAttr row.attrs "DESC")
    (orDefault (lookupAttr row.attrs "DESCRIPTION") row.block)
  let size := (lookupAttr row.attrs "SIZE").getD ""
  let material := (lookupAttr row.attrs "MATERIAL").getD ""
  let room := orDefault (lookupAttr row.attrs "ROOM")
    (orDefault (lookupAttr row.attrs "ZONE") "")
  match m with
  | some entry =>
    { block := row.block
      layer := row.layer
      item_code := orDefault (some entry.std_item_code) item_code
      desc := orDefault (some entry.std_desc) desc
      size := orDefault (some entry.std_size) size
      material := orDefault (some entry.std_material) material
      room := room
      category := orDefault (some entry.std_category) ""
      uom := orDefault (some entry.std_uom) "NOS" }
  | none =>
    { block := row.block
      layer := row.layer
      item_code := item_code
      desc := desc
      size := size
      material := material
      room := room
      category := ""
      uom := "NOS" }

/-! ## `validators.validate_required` (validators.py lines 1-8) -/

/-- The exceptions one row contributes: `{**r, "issue": ...}` is modelled as
the row paired with its issue tag. `not (r["item_code"] or r["block"])`
holds exactly when both strings are empty. -/
def rowProblems (r : Row) : List (Row × String) :=
  (if r.item_code = "" ∧ r.block = "" then [(r, "missing identity")] else []) ++
    (if r.desc = "" then [(r, "missing desc")] else [])

/-- Source `validators.validate_required`: the `problems` list in loop order. -/
def validate_required : List Row → List (Row × String)
  | [] => []
  | r :: rest => rowProblems r ++ validate_required rest

/-! ## Pipeline aggregation (pipeline.py lines 187-193, 205-206)

`agg` is a `defaultdict` keyed by the 5-tuple
`(r["item_code"] or r["block"], r["desc"], r["size"], r["material"], r["uom"])`
holding a count and a Python `set` of layers; dict insertion order is the
first-occurrence order of keys and is the order the Excel rows are
emitted in (`for ... in agg.items()`).
-/

/-- The aggregation key 5-tuple. -/
structure AggKey where
  code : String
  desc : String
  size : String
  material : String
  uom : String
deriving DecidableEq

/-- Source `r["item_code"] or r["block"]`. -/
def idOf (r : Row) : String :=
  if r.item_code = "" then r.block else r.item_code

/-- The key built for a row at pipeline.py line 189. -/
def aggKey (r : Row) : AggKey :=
  ⟨idOf r, r.desc, r.size, r.material, r.uom⟩

/-- One aggregation bucket: key, quantity, set of contributing layers. -/
abbrev AggState := List (AggKey × Nat × Finset String)

/-- One iteration of the aggregation loop: bump the row's bucket (dict
update preserves position; a fresh key is appended). -/
def updAgg : AggState → Row → AggState
  | [], r => [(aggKey r, 1, {r.layer})]
  | (k, q, ls) :: rest, r =>
    if k = aggKey r then (k, q + 1, insert r.layer ls) :: rest
    else (k, q, ls) :: updAgg rest r

/-- The whole aggregation loop over the normalized rows. -/
def aggregate (rows : List Row) : AggState :=
  rows.foldl updAgg []

/-- Quantity stored for a key (`0` when the key is absent). -/
def qtyOf : AggState → AggKey → Nat
  | [], _ => 0
  | (k, q, _) :: rest, key => if k = key then q else qtyOf rest key

/-- Layer set stored for a key (`∅` when the key is absent). -/
def layersOf : AggState → AggKey → Finset String
  | [], _ => ∅
  | (k, _, ls) :: rest, key => if k = key then ls else layersOf rest key

/-- The keys of the aggregation dict in insertion order. -/
def aggKeys (a : AggState) : List AggKey :=
  a.map (fun e => e.1)

/-! ## Room rollup (pipeline.py lines 209-217) -/

/-- Key of `room_totals`: `(room, r["item_code"] or r["block"], r["desc"])`. -/
structure RoomKey where
  room : String
  code : String
  desc : String
deriving DecidableEq

/-- Bump a room-rollup bucket. -/
def bumpRoom (key : RoomKey) : List (RoomKey × Nat) → List (RoomKey × Nat)
  | [] => [(key, 1)]
  | (k, q) :: rest =>
    if k = key then (k, q + 1) :: rest else (k, q) :: bumpRoom key rest

/-- One iteration of the rollup loop: rows whose `room` is empty are
skipped entirely. -/
def updRoom (acc : List (RoomKey × Nat)) (r : Row) : List (RoomKey × Nat) :=
  if r.room = "" then acc else bumpRoom ⟨r.room, idOf r, r.desc⟩ acc

/-- The `room_totals` dict over the normalized rows. -/
def roomRollup (rows : List Row) : List (RoomKey × Nat) :=
  rows.foldl updRoom []

/-- Quantity stored for a room key (`0` when absent). -/
def roomQty : List (RoomKey × Nat) → RoomKey → Nat
  | [], _ => 0
  | (k, q) :: rest, key => if k = key then q else roomQty rest key

/-- Sum of the rollup quantities over all entries of one room. -/
def roomSum : List (RoomKey × Nat) → String → Nat
  | [], _ => 0
  | (k, q) :: rest, room => (if k.room = room then q else 0) + roomSum rest room

/-! ## `ComprehensiveCADExtractor._arc_length`
(comprehensive_extractor.py lines 513-517)

Angles are degrees as Python floats, modelled over `ℝ`;
`math.radians x = x * π / 180`.
-/

/-- Source `math.radians`. -/
noncomputable def radians (x : ℝ) : ℝ := x * Real.pi / 180

/-- Source `ComprehensiveCADExtractor._arc_length` (`angle_diff = end - start`,
incremented by `360` when negative, then `radius * math.radians(angle_diff)`). -/
noncomputable def arcLength (radius startAngle endAngle : ℝ) : ℝ :=
  radius *
    radians
      (if endAngle - startAngle < 0 then endAngle - startAngle + 360
       else endAngle - startAngle)

/-! ## `DWGConverter.convert` (dwg_converter.py lines 91-178, 238-277)

The subprocess and file-system effects of one backend attempt are
abstracted into an outcome record: `raises` models an exception escaping
the attempt (caught at line 170, appending `"name: msg"` to the
warnings), `produced` models `success and os.path.exists(dxf_path)`
(line 153), and `valid` models `validation["is_valid"]` from
`_validate_conversion` (non-empty parseable output with at least one
entity). On a produced-but-invalid result the loop records
`"name produced invalid DXF"` and moves on; `converter_used` was already
set and is only overwritten by a later produced result.
-/

/-- The observable outcome of invoking one backend. -/
structure BackendOutcome where
  raises : Option String
  produced : Bool
  valid : Bool
deriving DecidableEq

/-- One detected converter backend with its fixed priority. -/
structure Backend where
  name : String
  priority : Nat
  outcome : BackendOutcome
deriving DecidableEq

/-- The metadata fields the loop mutates. -/
structure ConvMeta where
  converter_used : Option String
  warnings : List String
  error : Option String
deriving DecidableEq

/-- The `for converter_name, converter_path in converters_to_try:` loop. -/
def tryBackends : List Backend → ConvMeta → Bool × ConvMeta
  | [], m => (false, { m with error := some "All converters failed" })
  | b :: rest, m =>
    match b.outcome.raises with
    | some msg =>
      tryBackends rest { m with warnings := m.warnings ++ [b.name ++ ": " ++ msg] }
    | none =>
      if b.outcome.produced then
        if b.outcome.valid then
          (true, { m with converter_used := some b.name })
        else
          tryBackends rest
            { m with
              converter_used := some b.name
              warnings := m.warnings ++ [b.name ++ " produced invalid DXF"] }
      else tryBackends rest m

/-- Source `sorted(self.available_converters.items(), key=priority)`; Python's
sort is stable, as is `List.insertionSort`. -/
def sortBackends (backends : List Backend) : List Backend :=
  List.insertionSort (fun a b => a.priority ≤ b.priority) backends

/-- Source `DWGConverter.convert` restricted to its decision logic: try the
available backends in priority order, returning success and metadata. -/
def convert (backends : List Backend) : Bool × ConvMeta :=
  tryBackends (sortBackends backends) ⟨none, [], none⟩

/-! ## Derived notions used only in theorem statements -/

/-- First-occurrence order of a list of keys (the insertion order of a
Python dict filled by that key sequence). -/
def firstOccurrences (l : List AggKey) : List AggKey :=
  l.foldl (fun ks k => if k ∈ ks then ks else ks ++ [k]) []

/-- Case-insensitive comparison of two line items by description. -/
def itemLe (a b : BOQItem) : Prop :=
  pyLower a.description ≤ pyLower b.description

/-! # Theorems -/

/-! ## Pipeline aggregation lemmas (pipeline.py lines 187-193) -/

theorem qtyOf_updAgg (r : Row) (k : AggKey) :
    ∀ acc : AggState,
      qtyOf (updAgg acc r) k = qtyOf acc k + (if aggKey r = k then 1 else 0) := by
  intro acc
  induction acc with
  | nil => by_cases h : aggKey r = k <;> simp [updAgg, qtyOf, h]
  | cons hd tl ih =>
    obtain ⟨k0, q, ls⟩ := hd
    simp only [updAgg]
    split_ifs with h0 <;> by_cases hk : k0 = k <;>
      simp_all [qtyOf]

theorem layersOf_updAgg (r : Row) (k : AggKey) :
    ∀ acc : AggState,
      layersOf (updAgg acc r) k =
        if aggKey r = k then insert r.layer (layersOf acc k) else layersOf acc k := by
  intro acc
  induction acc with
  | nil => by_cases h : aggKey r = k <;> simp [updAgg, layersOf, h]
  | cons hd tl ih =>
    obtain ⟨k0, q, ls⟩ := hd
    simp only [updAgg]
    split_ifs with h0 <;> by_cases hk : k0 = k <;>
      simp_all [layersOf]

theorem aggKeys_updAgg (r : Row) :
    ∀ acc : AggState,
      aggKeys (updAgg acc r) =
        if aggKey r ∈ aggKeys acc then aggKeys acc else aggKeys acc ++ [aggKey r] := by
  intro acc
  induction acc with
  | nil => simp [updAgg, aggKeys]
  | cons hd tl ih =>
    obtain ⟨k0, q, ls⟩ := hd
    simp only [updAgg]
    split_ifs with h0 <;> by_cases hk : aggKey r ∈ aggKeys tl <;>
      simp_all [aggKeys]

theorem qtyOf_foldl (k : AggKey) :
    ∀ (rows : List Row) (acc : AggState),
      qtyOf (rows.foldl updAgg acc) k =
        qtyOf acc k + (rows.filter (fun x => aggKey x = k)).length := by
  intro rows
  induction rows with
  | nil => intro acc; simp
  | cons x xs ih =>
    intro acc
    by_cases h : aggKey x = k
    · simp [List.foldl_cons, ih, qtyOf_updAgg, h]
      omega
    · simp [List.foldl_cons, ih, qtyOf_updAgg, h]

theorem layersOf_foldl (k : AggKey) :
    ∀ (rows : List Row) (acc : AggState),
      layersOf (rows.foldl updAgg acc) k =
        layersOf acc k ∪ ((rows.filter (fun x => aggKey x = k)).map (fun x => x.layer)).toFinset := by
  intro rows
  induction rows with
  | nil => intro acc; simp
  | cons x xs ih =>
    intro acc
    by_cases h : aggKey x = k
    · simp [List.foldl_cons, ih, layersOf_updAgg, h, Finset.insert_union,
        Finset.union_insert]
    · simp [List.foldl_cons, ih, layersOf_updAgg, h]

theorem aggKeys_foldl :
    ∀ (rows : List Row) (acc : AggState),
      aggKeys (rows.foldl updAgg acc) =
        rows.foldl (fun ks r => if aggKey r ∈ ks then ks else ks ++ [aggKey r]) (aggKeys acc) := by
  intro rows
  induction rows with
  | nil => intro acc; simp
  | cons x xs ih =>
    intro acc
    by_cases h : aggKey x ∈ aggKeys acc <;>
      simp [List.foldl_cons, ih, aggKeys_updAgg, h]

theorem aggKeys_nodup_foldl :
    ∀ (rows : List Row) (acc : AggState),
      (aggKeys acc).Nodup → (aggKeys (rows.foldl updAgg acc)).Nodup := by
  intro rows
  induction rows with
  | nil => intro acc h; simpa using h
  | cons x xs ih =>
    intro acc h
    refine ih (updAgg acc x) ?_
    rw [aggKeys_updAgg]
    by_cases hm : aggKey x ∈ aggKeys acc
    · simpa [hm] using h
    · simp [hm, List.nodup_append, h]

/-- C1: every list of normalized rows aggregates so that rows with an
identical key tuple (item code or block name, description, size, material,
unit) land in exactly one bucket: the dict's keys are pairwise distinct,
each key's quantity is the number of rows sharing that key (the key does
not include the layer, so rows differing only in layer merge), and each
key's layer set is exactly the set of layers of its contributing rows. -/
theorem C1_aggregation_merges_by_exact_key (rows : List Row) :
    (aggKeys (aggregate rows)).Nodup ∧
      ∀ k : AggKey,
        qtyOf (aggregate rows) k = (rows.filter (fun x => aggKey x = k)).length ∧
          layersOf (aggregate rows) k =
            ((rows.filter (fun x => aggKey x = k)).map (fun x => x.layer)).toFinset := by
  refine ⟨aggKeys_nodup_foldl rows [] (by simp [aggKeys]), fun k => ⟨?_, ?_⟩⟩
  · simpa [qtyOf] using qtyOf_foldl k rows []
  · simpa [layersOf] using layersOf_foldl k rows []

/-! ## Room rollup lemmas (pipeline.py lines 209-217) -/

theorem roomQty_bumpRoom (key k : RoomKey) :
    ∀ acc : List (RoomKey × Nat),
      roomQty (bumpRoom key acc) k = roomQty acc k + (if key = k then 1 else 0) := by
  intro acc
  induction acc with
  | nil => by_cases h : key = k <;> simp [bumpRoom, roomQty, h]
  | cons hd tl ih =>
    obtain ⟨k0, q⟩ := hd
    simp only [bumpRoom]
    split_ifs with h0 <;> by_cases hk : k0 = k <;>
      simp_all [roomQty]

theorem roomQty_updRoom (r : Row) (k : RoomKey) (acc : List (RoomKey × Nat)) :
    roomQty (updRoom acc r) k =
      roomQty acc k +
        (if r.room ≠ "" ∧ (⟨r.room, idOf r, r.desc⟩ : RoomKey) = k then 1 else 0) := by
  by_cases h : r.room = ""
  · simp [updRoom, h]
  · by_cases hk : (⟨r.room, idOf r, r.desc⟩ : RoomKey) = k <;>
      simp [updRoom, h, hk, roomQty_bumpRoom]

theorem roomQty_foldl (k : RoomKey) :
    ∀ (rows : List Row) (acc : List (RoomKey × Nat)),
      roomQty (rows.foldl updRoom acc) k =
        roomQty acc k +
          (rows.filter
            (fun r => r.room ≠ "" ∧ (⟨r.room, idOf r, r.desc⟩ : RoomKey) = k)).length := by
  intro rows
  induction rows with
  | nil => intro acc; simp
  | cons x xs ih =>
    intro acc
    by_cases h : x.room ≠ "" ∧ (⟨x.room, idOf x, x.desc⟩ : RoomKey) = k
    · simp [List.foldl_cons, ih, roomQty_updRoom, h]
      omega
    · simp [List.foldl_cons, ih, roomQty_updRoom, h]

theorem roomSum_bumpRoom (key : RoomKey) (room : String) :
    ∀ acc : List (RoomKey × Nat),
      roomSum (bumpRoom key acc) room =
        roomSum acc room + (if key.room = room then 1 else 0) := by
  intro acc
  induction acc with
  | nil => by_cases h : key.room = room <;> simp [bumpRoom, roomSum, h]
  | cons hd tl ih =>
    obtain ⟨k0, q⟩ := hd
    simp only [bumpRoom]
    split_ifs with h0 <;> by_cases hk : k0.room = room <;>
      simp_all [roomSum] <;> omega

theorem roomSum_updRoom (r : Row) (room : String) (acc : List (RoomKey × Nat)) :
    roomSum (updRoom acc r) room =
      roomSum acc room + (if r.room ≠ "" ∧ r.room = room then 1 else 0) := by
  by_cases h : r.room = ""
  · simp [updRoom, h]
  · by_cases hr : r.room = room
    · subst hr
      simp [updRoom, h, roomSum_bumpRoom]
    · simp [updRoom, h, hr, roomSum_bumpRoom]

theorem roomSum_foldl (room : String) :
    ∀ (rows : List Row) (acc : List (RoomKey × Nat)),
      roomSum (rows.foldl updRoom acc) room =
        roomSum acc room +
          (rows.filter (fun r => r.room ≠ "" ∧ r.room = room)).length := by
  intro rows
  induction rows with
  | nil => intro acc; simp
  | cons x xs ih =>
    intro acc
    by_cases h : x.room ≠ "" ∧ x.room = room
    · obtain ⟨h1, h2⟩ := h
      subst h2
      simp [List.foldl_cons, ih, roomSum_updRoom, h1]
      omega
    · simp [List.foldl_cons, ih, roomSum_updRoom, h]

theorem bumpRoom_fst (key : RoomKey) :
    ∀ acc : List (RoomKey × Nat),
      (bumpRoom key acc).map Prod.fst = acc.map Prod.fst ∨
        (bumpRoom key acc).map Prod.fst = acc.map Prod.fst ++ [key] := by
  intro acc
  induction acc with
  | nil => simp [bumpRoom]
  | cons hd tl ih =>
    obtain ⟨k0, q⟩ := hd
    simp only [bumpRoom]
    split_ifs with h0
    · left; simp
    · rcases ih with ih | ih
      · left; simp [ih]
      · right; simp [ih]

theorem roomRollup_rooms_nonempty :
    ∀ (rows : List Row) (acc : List (RoomKey × Nat)),
      (∀ k ∈ acc.map Prod.fst, k.room ≠ "") →
        ∀ k ∈ (rows.foldl updRoom acc).map Prod.fst, k.room ≠ "" := by
  intro rows
  induction rows with
  | nil => intro acc h; simpa using h
  | cons x xs ih =>
    intro acc h
    refine ih (updRoom acc x) ?_
    intro k hk
    by_cases hx : x.room = ""
    · exact h k (by simpa [updRoom, hx] using hk)
    · rcases bumpRoom_fst ⟨x.room, idOf x, x.desc⟩ acc with heq | heq
      · exact h k (by simpa [updRoom, hx, heq] using hk)
      · have : k ∈ acc.map Prod.fst ++ [(⟨x.room, idOf x, x.desc⟩ : RoomKey)] := by
          simpa [updRoom, hx, heq] using hk
        rcases List.mem_append.mp this with hm | hm
        · exact h k hm
        · simp at hm
          subst hm
          exact hx

/-- C5: the room rollup never creates a bucket for an empty room/zone; for
a key whose room is non-empty, its quantity is the number of normalized
rows carrying that room, that identity (item code or block name) and that
description; and for every non-empty room the rollup quantities of that
room's entries sum to the number of rows carrying that room. -/
theorem C5_room_rollup_excludes_empty_rooms (rows : List Row) :
    (∀ k ∈ (roomRollup rows).map Prod.fst, k.room ≠ "") ∧
      (∀ k : RoomKey, k.room ≠ "" →
        roomQty (roomRollup rows) k =
          (rows.filter
            (fun r => r.room = k.room ∧ idOf r = k.code ∧ r.desc = k.desc)).length) ∧
      (∀ room : String, room ≠ "" →
        roomSum (roomRollup rows) room = (rows.filter (fun r => r.room = room)).length) := by
  refine ⟨roomRollup_rooms_nonempty rows [] (by simp), fun k hk => ?_, fun room hroom => ?_⟩
  · obtain ⟨kr, kc, kd⟩ := k
    have h := roomQty_foldl ⟨kr, kc, kd⟩ rows []
    rw [show roomRollup rows = rows.foldl updRoom [] from rfl, h]
    simp only [roomQty, Nat.zero_add]
    congr 1
    apply List.filter_congr
    intro r _
    rw [decide_eq_decide, RoomKey.mk.injEq]
    constructor
    · rintro ⟨-, h2⟩
      exact h2
    · rintro ⟨h1, h2, h3⟩
      exact ⟨by rw [h1]; exact hk, h1, h2, h3⟩
  · have h := roomSum_foldl room rows []
    rw [show roomRollup rows = rows.foldl updRoom [] from rfl, h]
    simp only [roomSum, Nat.zero_add]
    congr 1
    apply List.filter_congr
    intro r _
    rw [decide_eq_decide]
    constructor
    · rintro ⟨-, h2⟩
      exact h2
    · intro h2
      exact ⟨by rw [h2]; exact hroom, h2⟩

/-- Witness for C5 at a concrete input: one row in room `R1`. -/
theorem C5_witness :
    roomQty (roomRollup [⟨"B", "L", "C", "D", "", "", "R1", "", "NOS"⟩]) ⟨"R1", "C", "D"⟩ = 1 ∧
      roomSum (roomRollup [⟨"B", "L", "C", "D", "", "", "R1", "", "NOS"⟩]) "R1" = 1 := by
  constructor
  · exact ((C5_room_rollup_excludes_empty_rooms _).2.1 ⟨"R1", "C", "D"⟩ (by decide)).trans
      (by decide)
  · exact ((C5_room_rollup_excludes_empty_rooms _).2.2 "R1" (by decide)).trans (by decide)

/-! ## BOQGenerator theorems -/

/-- C2: a drawing whose entity collection is empty (in particular no
inserts, the only kind `generate` reads) produces an empty item list and
all-zero statistics; `generate` is a total Lean function, so it cannot
raise. -/
theorem C2_empty_drawing_empty_boq (d : CadData) (h : getInserts d = []) :
    generate d = ⟨[], ⟨0, 0, 0⟩⟩ := by
  simp [generate, generateFromInserts, h, countsOf, sortCounts, buildStatistics, mkItems,
    List.insertionSort]

/-- Witness for C2: the generator run on `cad_data` with no `entities`
section at all. -/
theorem C2_witness : generate ⟨none⟩ = ⟨[], ⟨0, 0, 0⟩⟩ :=
  C2_empty_drawing_empty_boq ⟨none⟩ rfl

/-- C7: a block instance whose (stripped) block name is empty and that
carries no attributes is skipped by insert-based item generation — the
BOQ output is the same as if the instance were absent — and processing it
is total (no exception). -/
theorem C7_empty_name_insert_excluded (pre post : List (Option InsertRec)) (ins : InsertRec)
    (hname : insertName ins = "") (_hattrs : ins.attributes = []) :
    generate ⟨some (pre ++ some ins :: post)⟩ = generate ⟨some (pre ++ post)⟩ := by
  have hc : countsOf (pre ++ some ins :: post) = countsOf (pre ++ post) := by
    simp [countsOf, List.foldl_append, List.foldl_cons, countStep, hname]
  simp [generate, generateFromInserts, getInserts, hc]

/-- Witness for C7: a drawing with one real door block and one whitespace-
named attribute-free instance generates the same BOQ as without the
latter. -/
theorem C7_witness :
    generate ⟨some [some ⟨some "DOOR", []⟩, some ⟨some " ", []⟩]⟩ =
      generate ⟨some [some ⟨some "DOOR", []⟩]⟩ :=
  C7_empty_name_insert_excluded [some ⟨some "DOOR", []⟩] [] ⟨some " ", []⟩ (by decide) rfl

/-! ## Ordering of emitted line items (C6) -/

theorem mkItems_mem :
    ∀ (l : List (String × Nat)) (s : Nat) (it : BOQItem),
      it ∈ mkItems l s → ∃ p ∈ l, it.description = p.1 := by
  intro l
  induction l with
  | nil => intro s it h; simp [mkItems] at h
  | cons hd tl ih =>
    intro s it h
    obtain ⟨name, qty⟩ := hd
    simp only [mkItems, List.mem_cons] at h
    rcases h with h | h
    · exact ⟨(name, qty), by simp, by simp [h]⟩
    · obtain ⟨p, hp, hde⟩ := ih (s + 1) it h
      exact ⟨p, by simp [hp], hde⟩

theorem mkItems_sorted :
    ∀ (l : List (String × Nat)) (s : Nat),
      l.Pairwise countLe → (mkItems l s).Pairwise itemLe := by
  intro l
  induction l with
  | nil => intro s _; simp [mkItems]
  | cons hd tl ih =>
    intro s h
    obtain ⟨name, qty⟩ := hd
    rw [List.pairwise_cons] at h
    simp only [mkItems]
    rw [List.pairwise_cons]
    refine ⟨fun it hit => ?_, ih (s + 1) h.2⟩
    obtain ⟨p, hp, hde⟩ := mkItems_mem tl (s + 1) it hit
    have hle := h.1 p hp
    simp only [countLe] at hle
    simp only [itemLe, hde]
    exact hle

/-- C6 (amended): the line items built by `BOQGenerator` are emitted
sorted case-insensitively by description (so generator output order is
reproducible), while the pipeline's BOQ sheet emits its aggregated line
items in first-occurrence order of their aggregation keys — deterministic
for identical input, but not sorted by description. -/
theorem C6_output_ordering :
    (∀ d : CadData, ((generate d).items).Pairwise itemLe) ∧
      ∀ rows : List Row, aggKeys (aggregate rows) = firstOccurrences (rows.map aggKey) := by
  constructor
  · intro d
    exact mkItems_sorted _ 1 (List.sorted_insertionSort countLe _)
  · intro rows
    rw [show aggregate rows = rows.foldl updAgg [] from rfl, aggKeys_foldl]
    simp [firstOccurrences, aggKeys, List.foldl_map]

/-- Counterexample to C6 as stated: two normalized rows with descriptions
`"B"` then `"A"` make the pipeline aggregation emit its line items with
descriptions in the order `["B", "A"]`, which is not sorted
case-insensitively by description. -/
theorem C6_counterexample :
    (aggKeys (aggregate [⟨"B1", "L", "PB", "B", "", "", "", "", "NOS"⟩,
        ⟨"A1", "L", "PA", "A", "", "", "", "", "NOS"⟩])).map (fun k => k.desc) = ["B", "A"] ∧
      ¬(pyLower "B" ≤ pyLower "A") := by
  constructor
  · decide
  · rw [show pyLower "B" = "b" from rfl, show pyLower "A" = "a" from rfl,
      String.le_iff_toList_le]
    decide

/-! ## Category inference (C3) -/

theorem findCategory_of_none (u : String) :
    ∀ l, (∀ e ∈ l, entryMatches u e = false) → findCategory u l = none := by
  intro l
  induction l with
  | nil => intro _; rfl
  | cons hd tl ih =>
    intro h
    have h0 := h hd (by simp)
    simp [findCategory, h0, ih fun e he => h e (by simp [he])]

theorem findCategory_first (u : String) :
    ∀ (pre : List (List String × String)) (kws : List String) (cat : String)
      (post : List (List String × String)),
      (∀ e ∈ pre, entryMatches u e = false) →
      entryMatches u (kws, cat) = true →
      findCategory u (pre ++ (kws, cat) :: post) = some cat := by
  intro pre
  induction pre with
  | nil => intro kws cat post _ hm; simp [findCategory, hm]
  | cons hd tl ih =>
    intro kws cat post hpre hm
    have h0 := hpre hd (by simp)
    simp only [List.cons_append, findCategory, h0, Bool.false_eq_true, if_false]
    exact ih kws cat post (fun e he => hpre e (by simp [he])) hm

/-- C3 (amended): category/confidence assignment is a deterministic
function of the block name, resolved strictly in the order of the fixed
priority table: the first keyword list containing a matching keyword wins
with high confidence; a name matching no list falls back to
`Walls`/medium when it contains `"WALL"`, to `Columns`/medium when it
contains `"COLUMN"` **or `"COL"`**, and otherwise to
`Miscellaneous`/low. -/
theorem C3_category_priority_order (name : String) :
    (∀ (pre : List (List String × String)) (kws : List String) (cat : String)
        (post : List (List String × String)),
      categoryMapping = pre ++ (kws, cat) :: post →
      (∀ e ∈ pre, entryMatches (pyUpper name) e = false) →
      entryMatches (pyUpper name) (kws, cat) = true →
      inferCategory name = (cat, "high")) ∧
    ((∀ e ∈ categoryMapping, entryMatches (pyUpper name) e = false) →
      strContains (pyUpper name) "WALL" = true →
      inferCategory name = ("Walls", "medium")) ∧
    ((∀ e ∈ categoryMapping, entryMatches (pyUpper name) e = false) →
      strContains (pyUpper name) "WALL" = false →
      (strContains (pyUpper name) "COLUMN" = true ∨ strContains (pyUpper name) "COL" = true) →
      inferCategory name = ("Columns", "medium")) ∧
    ((∀ e ∈ categoryMapping, entryMatches (pyUpper name) e = false) →
      strContains (pyUpper name) "WALL" = false →
      strContains (pyUpper name) "COLUMN" = false →
      strContains (pyUpper name) "COL" = false →
      inferCategory name = ("Miscellaneous", "low")) := by
  refine ⟨?_, ?_, ?_, ?_⟩
  · intro pre kws cat post hmap hpre hm
    have hfind : findCategory (pyUpper name) categoryMapping = some cat := by
      rw [hmap]
      exact findCategory_first (pyUpper name) pre kws cat post hpre hm
    simp [inferCategory, hfind]
  · intro hnone hwall
    simp [inferCategory, findCategory_of_none (pyUpper name) categoryMapping hnone, hwall]
  · intro hnone hwall hcol
    rcases hcol with hc | hc <;>
      simp [inferCategory, findCategory_of_none (pyUpper name) categoryMapping hnone, hwall, hc]
  · intro hnone hwall hcolumn hcol
    simp [inferCategory, findCategory_of_none (pyUpper name) categoryMapping hnone, hwall,
      hcolumn, hcol]

/-- Counterexample to C3 as stated: `"PROTOCOL"` matches no keyword list
and contains neither `"WALL"` nor `"COLUMN"`, so the claim predicts
`Miscellaneous`/low, but the code's extra `"COL"` fallback assigns it
`Columns`/medium. -/
theorem C3_counterexample :
    inferCategory "PROTOCOL" = ("Columns", "medium") ∧
      (∀ e ∈ categoryMapping, entryMatches (pyUpper "PROTOCOL") e = false) ∧
      strContains (pyUpper "PROTOCOL") "WALL" = false ∧
      strContains (pyUpper "PROTOCOL") "COLUMN" = false ∧
      inferCategory "PROTOCOL" ≠ ("Miscellaneous", "low") := by
  refine ⟨by decide, by decide, by decide, by decide, by decide⟩

/-- Witness for C3 exercising all four branches of the amended claim at
concrete block names. -/
theorem C3_witness :
    inferCategory "DOOR-900" = ("Doors", "high") ∧
      inferCategory "MYWALL" = ("Walls", "medium") ∧
      inferCategory "XCOLX" = ("Columns", "medium") ∧
      inferCategory "QQQ" = ("Miscellaneous", "low") := by
  refine ⟨?_, ?_, ?_, ?_⟩
  · exact (C3_category_priority_order "DOOR-900").1 [] ["DOOR", "DOR", "PORTE"] "Doors"
      [(["WINDOW", "WIN", "FENETRE"], "Windows"), (["CHAIR", "SEAT"], "Chairs"),
        (["TABLE", "DESK"], "Tables"), (["BED"], "Beds"), (["SOFA", "COUCH"], "Sofas"),
        (["WARDROBE", "CUPBOARD"], "Storage")]
      rfl (by simp) (by decide)
  · exact (C3_category_priority_order "MYWALL").2.1 (by decide) (by decide)
  · exact (C3_category_priority_order "XCOLX").2.2.1 (by decide) (by decide)
      (Or.inr (by decide))
  · exact (C3_category_priority_order "QQQ").2.2.2 (by decide) (by decide) (by decide)
      (by decide)

/-! ## Normalization fallbacks (C4) -/

theorem orDefault_of_blank (a : Option String) (b : String) (h : a.getD "" = "") :
    orDefault a b = b := by
  cases a with
  | none => rfl
  | some s =>
    simp only [Option.getD_some] at h
    simp [orDefault, h]

theorem orDefault_of_ne (a : Option String) (b v : String) (ha : a = some v) (hv : v ≠ "") :
    orDefault a b = v := by
  subst ha
  simp [orDefault, hv]

theorem normalize_row_of_no_catalog (e : EntityRec) (cat : Catalog)
    (h : lookupCatalog cat (pyUpper e.block) = none) :
    normalize_row e cat =
      ⟨e.block, e.layer,
        orDefault (lookupAttr e.attrs "ITEM_CODE") (orDefault (lookupAttr e.attrs "CODE") ""),
        orDefault (lookupAttr e.attrs "DESC")
          (orDefault (lookupAttr e.attrs "DESCRIPTION") e.block),
        (lookupAttr e.attrs "SIZE").getD "",
        (lookupAttr e.attrs "MATERIAL").getD "",
        orDefault (lookupAttr e.attrs "ROOM") (orDefault (lookupAttr e.attrs "ZONE") ""),
        "", "NOS"⟩ := by
  simp [normalize_row, h]

/-- C4 (amended): `normalize_row` is total (it never raises), and when no
catalog entry matches: the item code falls back to the `ITEM_CODE` then
`CODE` attributes and finally to the *empty string* (not to the block
name — the block name is substituted for an empty item code only later,
at aggregation/validation); the description falls back to the `DESC` then
`DESCRIPTION` attributes and finally to the block name itself; and the
unit of measure defaults to the count unit `"NOS"` (not `"each"`). -/
theorem C4_normalization_fallbacks (e : EntityRec) (cat : Catalog)
    (h : lookupCatalog cat (pyUpper e.block) = none) :
    (normalize_row e cat).uom = "NOS" ∧
      ((lookupAttr e.attrs "ITEM_CODE").getD "" = "" →
        (lookupAttr e.attrs "CODE").getD "" = "" →
        (normalize_row e cat).item_code = "") ∧
      (∀ v, lookupAttr e.attrs "ITEM_CODE" = some v → v ≠ "" →
        (normalize_row e cat).item_code = v) ∧
      (∀ v, (lookupAttr e.attrs "ITEM_CODE").getD "" = "" →
        lookupAttr e.attrs "CODE" = some v → v ≠ "" →
        (normalize_row e cat).item_code = v) ∧
      ((lookupAttr e.attrs "DESC").getD "" = "" →
        (lookupAttr e.attrs "DESCRIPTION").getD "" = "" →
        (normalize_row e cat).desc = e.block) ∧
      (∀ v, lookupAttr e.attrs "DESC" = some v → v ≠ "" →
        (normalize_row e cat).desc = v) ∧
      (∀ v, (lookupAttr e.attrs "DESC").getD "" = "" →
        lookupAttr e.attrs "DESCRIPTION" = some v → v ≠ "" →
        (normalize_row e cat).desc = v) := by
  rw [normalize_row_of_no_catalog e cat h]
  refine ⟨rfl, ?_, ?_, ?_, ?_, ?_, ?_⟩
  · intro h1 h2
    simp [orDefault_of_blank _ _ h1, orDefault_of_blank _ _ h2]
  · intro v hv hne
    simp [orDefault_of_ne _ _ _ hv hne]
  · intro v h1 hv hne
    simp [orDefault_of_blank _ _ h1, orDefault_of_ne _ _ _ hv hne]
  · intro h1 h2
    simp [orDefault_of_blank _ _ h1, orDefault_of_blank _ _ h2]
  · intro v hv hne
    simp [orDefault_of_ne _ _ _ hv hne]
  · intro v h1 hv hne
    simp [orDefault_of_blank _ _ h1, orDefault_of_ne _ _ _ hv hne]

/-- Counterexample to C4 as stated: an entity with block name `"FOO"`, no
attributes and no catalog match is normalized with item code `""` (the
claim's fallback to the block name does not happen) and unit `"NOS"`
(not `"each"`). -/
theorem C4_counterexample :
    (normalize_row ⟨"FOO", "L0", []⟩ []).item_code = "" ∧
      (normalize_row ⟨"FOO", "L0", []⟩ []).item_code ≠ "FOO" ∧
      (normalize_row ⟨"FOO", "L0", []⟩ []).uom = "NOS" ∧
      (normalize_row ⟨"FOO", "L0", []⟩ []).uom ≠ "each" := by
  refine ⟨by decide, by decide, by decide, by decide⟩

/-- Witness for C4 at concrete inputs: an `ITEM_CODE` attribute is used
for the item code, and with no attributes the description falls back to
the block name while the unit defaults to `"NOS"`. -/
theorem C4_witness :
    (normalize_row ⟨"FOO", "L0", [("ITEM_CODE", "X1")]⟩ []).item_code = "X1" ∧
      (normalize_row ⟨"BAR", "L1", []⟩ []).desc = "BAR" ∧
      (normalize_row ⟨"BAR", "L1", []⟩ []).uom = "NOS" := by
  refine ⟨?_, ?_, ?_⟩
  · exact (C4_normalization_fallbacks ⟨"FOO", "L0", [("ITEM_CODE", "X1")]⟩ [] rfl).2.2.1 "X1"
      (by decide) (by decide)
  · exact (C4_normalization_fallbacks ⟨"BAR", "L1", []⟩ [] rfl).2.2.2.2.1 rfl rfl
  · exact (C4_normalization_fallbacks ⟨"BAR", "L1", []⟩ [] rfl).1

/-! ## Validator (C8) -/

theorem rowProblems_filter_identity (x r : Row) :
    ((rowProblems x).filter (fun e => e = (r, "missing identity"))).length =
      (if x = r then 1 else 0) * (if r.item_code = "" ∧ r.block = "" then 1 else 0) := by
  by_cases hxr : x = r
  · subst hxr
    by_cases h1 : x.item_code = "" ∧ x.block = "" <;> by_cases h2 : x.desc = "" <;>
      simp [rowProblems, h1, h2]
  · by_cases h1 : x.item_code = "" ∧ x.block = "" <;> by_cases h2 : x.desc = "" <;>
      simp [rowProblems, h1, h2, hxr]

theorem rowProblems_filter_desc (x r : Row) :
    ((rowProblems x).filter (fun e => e = (r, "missing desc"))).length =
      (if x = r then 1 else 0) * (if r.desc = "" then 1 else 0) := by
  by_cases hxr : x = r
  · subst hxr
    by_cases h1 : x.item_code = "" ∧ x.block = "" <;> by_cases h2 : x.desc = "" <;>
      simp [rowProblems, h1, h2]
  · by_cases h1 : x.item_code = "" ∧ x.block = "" <;> by_cases h2 : x.desc = "" <;>
      simp [rowProblems, h1, h2, hxr]

theorem rowProblems_issues (x : Row) :
    ∀ e ∈ rowProblems x, e.2 = "missing identity" ∨ e.2 = "missing desc" := by
  by_cases h1 : x.item_code = "" ∧ x.block = "" <;> by_cases h2 : x.desc = "" <;>
    simp [rowProblems, h1, h2]

/-- C8 (amended): for every occurrence of a row in the input, the
validator emits exactly one `"missing identity"` exception when (and only
when) both item code and block name are empty, exactly one
`"missing desc"` exception when (and only when) the description is empty
(the source tags it `"missing desc"`, not `"missing description"`), and
nothing else — so a row occurrence failing both rules yields exactly two
(non-deduplicated) exceptions and one failing neither yields none. -/
theorem C8_validator_one_exception_per_rule (rows : List Row) (r : Row) :
    ((validate_required rows).filter (fun e => e = (r, "missing identity"))).length =
        (rows.filter (fun x => x = r)).length *
          (if r.item_code = "" ∧ r.block = "" then 1 else 0) ∧
      ((validate_required rows).filter (fun e => e = (r, "missing desc"))).length =
        (rows.filter (fun x => x = r)).length * (if r.desc = "" then 1 else 0) ∧
      ∀ e ∈ validate_required rows, e.2 = "missing identity" ∨ e.2 = "missing desc" := by
  induction rows with
  | nil => simp [validate_required]
  | cons x xs ih =>
    obtain ⟨ih1, ih2, ih3⟩ := ih
    refine ⟨?_, ?_, ?_⟩
    · simp only [validate_required, List.filter_append, List.length_append, ih1,
        rowProblems_filter_identity]
      by_cases hxr : x = r <;> simp [hxr, List.filter_cons, Nat.add_mul] <;>
        split_ifs <;> omega
    · simp only [validate_required, List.filter_append, List.length_append, ih2,
        rowProblems_filter_desc]
      by_cases hxr : x = r <;> simp [hxr, List.filter_cons, Nat.add_mul] <;>
        split_ifs <;> omega
    · intro e he
      simp only [validate_required] at he
      rcases List.mem_append.mp he with hm | hm
      · exact rowProblems_issues x e hm
      · exact ih3 e hm

/-- Counterexample to C8 as stated: a row with non-empty block name and
empty description is flagged with the literal issue tag `"missing desc"`,
not `"missing description"`. -/
theorem C8_counterexample :
    validate_required [⟨"B", "L", "", "", "", "", "", "", "NOS"⟩] =
        [(⟨"B", "L", "", "", "", "", "", "", "NOS"⟩, "missing desc")] ∧
      ∀ e ∈ validate_required [⟨"B", "L", "", "", "", "", "", "", "NOS"⟩],
        e.2 ≠ "missing description" := by
  refine ⟨by decide, by decide⟩

/-! ## Arc length (C9) -/

/-- C9: `_arc_length` computes radius times the swept angle in radians,
normalizing a negative raw end-minus-start difference by adding a full
turn of 360 degrees; in particular start 0°/end 270° gives `r·(3π/2)` and
the wrap-around start 270°/end 0° gives `r·(π/2)`. -/
theorem C9_arc_length_normalization (r : ℝ) :
    (∀ s e : ℝ, ¬(e - s < 0) → arcLength r s e = r * ((e - s) * Real.pi / 180)) ∧
      (∀ s e : ℝ, e - s < 0 → arcLength r s e = r * ((e - s + 360) * Real.pi / 180)) ∧
      arcLength r 0 270 = r * (3 * Real.pi / 2) ∧
      arcLength r 270 0 = r * (Real.pi / 2) := by
  refine ⟨fun s e h => ?_, fun s e h => ?_, ?_, ?_⟩
  · rw [arcLength, if_neg h, radians]
  · rw [arcLength, if_pos h, radians]
  · rw [arcLength, if_neg (by norm_num : ¬((270:ℝ) - 0 < 0)), radians]
    ring
  · rw [arcLength, if_pos (by norm_num : (0:ℝ) - 270 < 0), radians]
    ring

/-- Witness for C9 at radius 2 with concrete non-wrapping and wrapping
angle pairs. -/
theorem C9_witness :
    arcLength 2 0 90 = 2 * ((90 - 0) * Real.pi / 180) ∧
      arcLength 2 270 0 = 2 * ((0 - 270 + 360) * Real.pi / 180) :=
  ⟨(C9_arc_length_normalization 2).1 0 90 (by norm_num),
    (C9_arc_length_normalization 2).2.1 270 0 (by norm_num)⟩

/-! ## FormatConverter fallback (C10) -/

/-- C10: the convert loop tries the available backends in ascending
priority order (here backend `A` with the smaller priority is attempted
first even though it is listed second) and stops at the first backend
whose output passes validation; when `A` converts but fails validation
and the later backend `B` validates, the run succeeds, the metadata names
`B` as the converter used, and `A`'s failure reason is retained among the
accumulated warnings. -/
theorem C10_converter_priority_and_warning_retention
    (nA nB : String) (pA pB : Nat) (oA oB : BackendOutcome)
    (hp : pA < pB)
    (hA1 : oA.raises = none) (hA2 : oA.produced = true) (hA3 : oA.valid = false)
    (hB1 : oB.raises = none) (hB2 : oB.produced = true) (hB3 : oB.valid = true) :
    ((convert [⟨nB, pB, oB⟩, ⟨nA, pA, oA⟩]).1 = true ∧
      (convert [⟨nB, pB, oB⟩, ⟨nA, pA, oA⟩]).2.converter_used = some nB ∧
      (nA ++ " produced invalid DXF") ∈ (convert [⟨nB, pB, oB⟩, ⟨nA, pA, oA⟩]).2.warnings) ∧
    ∀ oX : BackendOutcome, oX.raises = none → oX.produced = true → oX.valid = true →
      (convert [⟨nB, pB, oB⟩, ⟨nA, pA, oX⟩]).1 = true ∧
      (convert [⟨nB, pB, oB⟩, ⟨nA, pA, oX⟩]).2.converter_used = some nA := by
  have hsort : ∀ oX : BackendOutcome,
      sortBackends [⟨nB, pB, oB⟩, ⟨nA, pA, oX⟩] = [⟨nA, pA, oX⟩, ⟨nB, pB, oB⟩] := by
    intro oX
    simp [sortBackends, List.insertionSort, List.orderedInsert, Nat.not_le.mpr hp]
  constructor
  · refine ⟨?_, ?_, ?_⟩ <;>
      simp [convert, hsort, tryBackends, hA1, hA2, hA3, hB1, hB2, hB3]
  · intro oX h1 h2 h3
    constructor <;> simp [convert, hsort, tryBackends, h1, h2, h3]

/-- Witness for C10: LibreDWG (priority 1) converts but fails validation,
ODA (priority 2) validates; the metadata names ODA and keeps LibreDWG's
failure reason. -/
theorem C10_witness :
    (convert [⟨"oda", 2, ⟨none, true, true⟩⟩, ⟨"libredwg", 1, ⟨none, true, false⟩⟩]).1 = true ∧
      (convert [⟨"oda", 2, ⟨none, true, true⟩⟩,
        ⟨"libredwg", 1, ⟨none, true, false⟩⟩]).2.converter_used = some "oda" ∧
      ("libredwg" ++ " produced invalid DXF") ∈
        (convert [⟨"oda", 2, ⟨none, true, true⟩⟩,
          ⟨"libredwg", 1, ⟨none, true, false⟩⟩]).2.warnings :=
  (C10_converter_priority_and_warning_retention "libredwg" "oda" 1 2
    ⟨none, true, false⟩ ⟨none, true, true⟩ (by decide) rfl rfl rfl rfl rfl rfl).1

end BomService
